import Mathlib

/-!
Shallow embedding of the job-queue / worker / cache core of the
dataset-preview service, covering:
- src/workers/datasets_based/src/datasets_based/workers/splits.py
- src/src/datasets_preview_backend/routes/queue_stats.py
- the healthcheck behaviour exercised by src/e2e/tests/test_healthcheck.py

External collaborators (the `datasets` metadata provider, wall-clock time,
the queue store) are modelled as explicit parameters.
-/

/-- Exceptions the external metadata provider (the `datasets` library) may
raise: `emptyDataset` embeds `datasets.data_files.EmptyDatasetError`; `other`
stands for any other `Exception`. -/
inductive ProviderExc where
  | emptyDataset (msg : String)
  | other (msg : String)
  deriving DecidableEq

/-- Model of the external metadata provider: `get_dataset_config_names` and
`get_dataset_split_names` either return an ordered list of string identifiers
or raise an exception. -/
structure Provider where
  configNames : Except ProviderExc (List String)
  splitNames : String → Except ProviderExc (List String)

/-- Python `str(...)` applied to a provider identifier; the provider returns
`str` values, on which `str` is the identity. -/
def pyStr (s : String) : String := s

/-- Python `sorted(...)` on a list of strings: lexicographic order. -/
def pySorted (l : List String) : List String := l.mergeSort (fun a b => a ≤ b)

/-- SplitItem (TypedDict): keys `dataset`, `config`, `split`. -/
structure SplitItem where
  dataset : String
  config : String
  split : String
  deriving DecidableEq

/-- SplitsResponseContent (TypedDict): the single key `splits`. -/
structure SplitsResponseContent where
  splits : List SplitItem
  deriving DecidableEq

/-- Inner loop of `get_dataset_split_full_names`: for each config in the given
order, fetch the split names and emit one SplitItem per split, in the order the
provider returned the splits; a provider exception propagates. -/
def collectSplitItems (dataset : String)
    (splitNames : String → Except ProviderExc (List String)) :
    List String → Except ProviderExc (List SplitItem)
  | [] => Except.ok []
  | c :: cs => do
      let ss ← splitNames c
      let rest ← collectSplitItems dataset splitNames cs
      Except.ok ((ss.map fun s => ⟨dataset, pyStr c, pyStr s⟩) ++ rest)

/-- Embeds `get_dataset_split_full_names`: the list comprehension over
`sorted(get_dataset_config_names(...))` and, per config,
`get_dataset_split_names(...)`. -/
def get_dataset_split_full_names (dataset : String) (p : Provider) :
    Except ProviderExc (List SplitItem) := do
  let configs ← p.configNames
  collectSplitItems dataset p.splitNames (pySorted configs)

/-- Data carried by a `libcommon.exceptions.CustomError`. Modelled from the
spec: libcommon is not under src/; the spec's ErrorRecord is
`{code, http_status, message, cause?, disclose_cause}`. -/
structure CustomErrorData where
  message : String
  status_code : Nat
  code : String
  cause : Option ProviderExc
  disclose_cause : Bool
  deriving DecidableEq

/-- Embeds the `Literal["EmptyDatasetError", "SplitsNamesError"]` code type. -/
inductive SplitsWorkerErrorCode where
  | emptyDatasetError
  | splitsNamesError
  deriving DecidableEq

/-- Embeds `str(code)` on the literal code values. -/
def SplitsWorkerErrorCode.str : SplitsWorkerErrorCode → String
  | .emptyDatasetError => "EmptyDatasetError"
  | .splitsNamesError => "SplitsNamesError"

/-- Embeds `SplitWorkerError.__init__` with all five arguments passed
explicitly. -/
def mkSplitWorkerError (message : String) (status_code : Nat)
    (code : SplitsWorkerErrorCode) (cause : Option ProviderExc)
    (disclose_cause : Bool) : CustomErrorData :=
  ⟨message, status_code, code.str, cause, disclose_cause⟩

/-- Embeds `SplitWorkerError.__init__` when `disclose_cause` is not passed:
the signature defaults it to `False`. -/
def mkSplitWorkerErrorDefault (message : String) (status_code : Nat)
    (code : SplitsWorkerErrorCode) (cause : Option ProviderExc) :
    CustomErrorData :=
  mkSplitWorkerError message status_code code cause false

/-- Embeds `HTTPStatus.INTERNAL_SERVER_ERROR`. -/
def INTERNAL_SERVER_ERROR : Nat := 500

/-- Embeds `SplitsNamesError.__init__`. -/
def mkSplitsNamesError (message : String) (cause : Option ProviderExc) :
    CustomErrorData :=
  mkSplitWorkerError message INTERNAL_SERVER_ERROR .splitsNamesError cause true

/-- Embeds `EmptyDatasetError.__init__`. -/
def mkEmptyDatasetError (message : String) (cause : Option ProviderExc) :
    CustomErrorData :=
  mkSplitWorkerError message INTERNAL_SERVER_ERROR .emptyDatasetError cause true

/-- Embeds `compute_splits_response`: call `get_dataset_split_full_names`
inside `try`; `except _EmptyDatasetError` raises `EmptyDatasetError`,
`except Exception` raises `SplitsNamesError`; on success return
`{"splits": split_items}`. -/
def compute_splits_response (dataset : String) (p : Provider) :
    Except CustomErrorData SplitsResponseContent :=
  match get_dataset_split_full_names dataset p with
  | .ok split_items => .ok ⟨split_items⟩
  | .error (ProviderExc.emptyDataset m) =>
      .error (mkEmptyDatasetError "The dataset is empty."
        (some (ProviderExc.emptyDataset m)))
  | .error (ProviderExc.other m) =>
      .error (mkSplitsNamesError "Cannot get the split names for the dataset."
        (some (ProviderExc.other m)))

/-- Embeds `libcommon.simple_cache.SplitFullName`: the
`(dataset, config, split)` identity triple. -/
structure SplitFullName where
  dataset : String
  config : String
  split : String
  deriving DecidableEq

/-- Embeds `SplitsWorker.get_new_splits`: the set comprehension over
`content["splits"]`. -/
def SplitsWorker.get_new_splits (content : SplitsResponseContent) :
    Finset SplitFullName :=
  (content.splits.map fun s => ⟨s.dataset, s.config, s.split⟩).toFinset

/-- Job status values from the spec's Job data model (`waiting`, `started`,
`success`, `error`). -/
inductive JobStatus where
  | waiting
  | started
  | success
  | error
  deriving DecidableEq

/-- The two job types of the base deployment, as reported by `GET /queue`. -/
inductive JobType where
  | datasets
  | splits
  deriving DecidableEq

/-- One row of the job queue, as far as counting by status is concerned. -/
structure QJob where
  jobType : JobType
  status : JobStatus
  deriving DecidableEq

/-- Per-status job counts for one job type. -/
structure StatusCounts where
  waiting : Nat
  started : Nat
  success : Nat
  error : Nat
  deriving DecidableEq

/-- Number of queue rows with the given job type and status. -/
def countJobs (q : List QJob) (t : JobType) (s : JobStatus) : Nat :=
  (q.filter fun j => j.jobType = t ∧ j.status = s).length

/-- Modelled from the spec: `count_by_status(job_type) → mapping(status →
count)` — `datasets_preview_backend.io.queue` is not under src/, only its
caller is; the spec fixes the grouped count-of-rows-by-status semantics. -/
def count_by_status (q : List QJob) (t : JobType) : StatusCounts :=
  ⟨countJobs q t .waiting, countJobs q t .started,
    countJobs q t .success, countJobs q t .error⟩

/-- Modelled from the spec: `get_dataset_jobs_count_by_status()` counts the
dataset jobs by status. -/
def get_dataset_jobs_count_by_status (q : List QJob) : StatusCounts :=
  count_by_status q .datasets

/-- Modelled from the spec: `get_split_jobs_count_by_status()` counts the
split jobs by status. -/
def get_split_jobs_count_by_status (q : List QJob) : StatusCounts :=
  count_by_status q .splits

/-- Broken-down UTC time as returned by `time.gmtime()`. -/
structure Tm where
  year : Nat
  month : Nat
  day : Nat
  hour : Nat
  minute : Nat
  second : Nat
  deriving DecidableEq

/-- Field ranges `time.gmtime()` guarantees (four-digit year; `second` may be
a leap second). -/
def Tm.valid (t : Tm) : Prop :=
  1000 ≤ t.year ∧ t.year ≤ 9999 ∧ t.month ≤ 12 ∧ t.day ≤ 31 ∧
    t.hour ≤ 23 ∧ t.minute ≤ 59 ∧ t.second ≤ 61

instance (t : Tm) : Decidable t.valid := by
  unfold Tm.valid
  infer_instance

/-- ASCII digit character for `n % 10`. -/
def digitChar (n : Nat) : Char := Char.ofNat (48 + n % 10)

/-- Two-digit zero-padded decimal rendering (`%m`, `%d`, `%H`, `%M`, `%S`)
for `n < 100`. -/
def pad2 (n : Nat) : List Char := [digitChar (n / 10), digitChar n]

/-- Four-digit zero-padded decimal rendering (`%Y`) for `n < 10000`. -/
def pad4 (n : Nat) : List Char :=
  [digitChar (n / 1000), digitChar (n / 100), digitChar (n / 10), digitChar n]

/-- Embeds `time.strftime("%Y-%m-%dT%H:%M:%SZ", time.gmtime())` applied to an
in-range broken-down time. -/
def strftimeIsoZ (t : Tm) : String :=
  String.mk (pad4 t.year ++ [Char.ofNat 45] ++ pad2 t.month ++ [Char.ofNat 45]
    ++ pad2 t.day ++ [Char.ofNat 84] ++ pad2 t.hour ++ [Char.ofNat 58]
    ++ pad2 t.minute ++ [Char.ofNat 58] ++ pad2 t.second ++ [Char.ofNat 90])

/-- JSON content built by `queue_stats_endpoint`: exactly the keys
`datasets`, `splits` and `created_at`. -/
structure QueueStatsContent where
  datasets : StatusCounts
  splits : StatusCounts
  created_at : String
  deriving DecidableEq

/-- Modelled from the spec: `get_response(content, status_code, max_age)`
(routes/_utils.py is not under src/) wraps the content as the JSON body with
the given HTTP status code and caching max-age. -/
structure QueueResponse where
  content : QueueStatsContent
  status_code : Nat
  max_age : Nat
  deriving DecidableEq

/-- Embeds `queue_stats_endpoint`: builds the three-key content and returns
`get_response(content, 200, MAX_AGE_SHORT_SECONDS)`; the queue state, the
current UTC time and the configured max-age are explicit parameters. -/
def queue_stats_endpoint (q : List QJob) (now : Tm) (maxAge : Nat) :
    QueueResponse :=
  ⟨⟨get_dataset_jobs_count_by_status q, get_split_jobs_count_by_status q,
      strftimeIsoZ now⟩, 200, maxAge⟩

/-- Decides whether a character list spells `YYYY-MM-DDTHH:MM:SSZ`: ISO-8601
UTC at second precision with a `Z` suffix. -/
def isIso8601SecondZChars : List Char → Bool
  | [y1, y2, y3, y4, c1, m1, m2, c2, d1, d2, c3, h1, h2, c4, n1, n2, c5,
      s1, s2, c6] =>
      y1.isDigit && y2.isDigit && y3.isDigit && y4.isDigit &&
      c1 = Char.ofNat 45 && m1.isDigit && m2.isDigit && c2 = Char.ofNat 45 &&
      d1.isDigit && d2.isDigit && c3 = Char.ofNat 84 && h1.isDigit &&
      h2.isDigit && c4 = Char.ofNat 58 && n1.isDigit && n2.isDigit &&
      c5 = Char.ofNat 58 && s1.isDigit && s2.isDigit && c6 = Char.ofNat 90
  | _ => false

/-- Decides whether a string is ISO-8601 UTC at second precision with a `Z`
suffix. -/
def isIso8601SecondZ (s : String) : Bool := isIso8601SecondZChars s.data

/-- Plain-text HTTP response, as observed by the e2e healthcheck test. -/
structure TextResponse where
  status_code : Nat
  text : String
  deriving DecidableEq

/-- Modelled from the spec: the `/healthcheck` handler (not under src/; src
holds only the e2e test asserting on it) returns status `200` with body
exactly `"ok"` when the backend is reachable. -/
def healthcheck_endpoint : TextResponse := ⟨200, "ok"⟩

/-- Modelled from the spec: one queue row for the claim model — identity
`id` (insertion order doubles as the `created_at` FIFO rank), job type,
status and, once started, the owning worker. -/
structure QueuedJob where
  id : Nat
  jobType : JobType
  status : JobStatus
  owner : Option Nat
  deriving DecidableEq

/-- Modelled from the spec: `claim(job_type)` — atomically select the first
`waiting` job of the given type in FIFO order, flip it to `started`, bind it
to the caller, and return it; `none` when no such job exists. -/
def claimJob (t : JobType) (caller : Nat) :
    List QueuedJob → Option Nat × List QueuedJob
  | [] => (none, [])
  | j :: rest =>
      if j.jobType = t ∧ j.status = JobStatus.waiting then
        (some j.id,
          { j with status := JobStatus.started, owner := some caller } :: rest)
      else
        let r := claimJob t caller rest
        (r.1, j :: r.2)

/-- Run a sequence of claim calls, each pair being `(job_type, caller)`, one
atomic step at a time (an arbitrary interleaving of concurrent atomic claims
is exactly such a sequence); returns the claimed job ids in call order. -/
def runClaims : List (JobType × Nat) → List QueuedJob →
    List (Option Nat) × List QueuedJob
  | [], q => ([], q)
  | (t, c) :: calls, q =>
      let r := claimJob t c q
      let rest := runClaims calls r.2
      (r.1 :: rest.1, rest.2)

/-- Ids of the queue rows currently in status `waiting`. -/
def waitingIds (q : List QueuedJob) : List Nat :=
  (q.filter fun j => j.status = JobStatus.waiting).map QueuedJob.id

theorem collectSplitItems_ok (d : String) (f : String → List String)
    (sn : String → Except ProviderExc (List String))
    (hs : ∀ c, sn c = .ok (f c)) :
    ∀ l, collectSplitItems d sn l =
      .ok (l.flatMap fun c => (f c).map fun s => ⟨d, pyStr c, pyStr s⟩) := by
  intro l
  induction l with
  | nil => rfl
  | cons c cs ih =>
      unfold collectSplitItems
      simp [hs c, ih, Bind.bind, Except.bind]

theorem collectSplitItems_congr (d : String)
    (f g : String → Except ProviderExc (List String)) (h : ∀ c, f c = g c) :
    ∀ l, collectSplitItems d f l = collectSplitItems d g l := by
  intro l
  induction l with
  | nil => rfl
  | cons c cs ih =>
      unfold collectSplitItems
      rw [h c]
      simp only [ih]

theorem get_names_eq (d : String) (p : Provider) (cs : List String)
    (f : String → List String) (hc : p.configNames = .ok cs)
    (hs : ∀ c, p.splitNames c = .ok (f c)) :
    get_dataset_split_full_names d p =
      .ok ((pySorted cs).flatMap fun c =>
        (f c).map fun s => ⟨d, pyStr c, pyStr s⟩) := by
  unfold get_dataset_split_full_names
  rw [hc]
  simpa [Bind.bind, Except.bind] using
    collectSplitItems_ok d f p.splitNames hs (pySorted cs)

/-- C1: if the provider listing inside `compute_splits_response` raises the
empty-dataset signal, the result is the taxonomy variant with code
"EmptyDatasetError", http_status 500 and disclose_cause true. -/
theorem empty_dataset_error_surfaced (d : String) (p : Provider) (m : String)
    (h : get_dataset_split_full_names d p =
      .error (ProviderExc.emptyDataset m)) :
    ∃ e, compute_splits_response d p = .error e ∧
      e.code = "EmptyDatasetError" ∧ e.status_code = 500 ∧
      e.disclose_cause = true := by
  refine ⟨mkEmptyDatasetError "The dataset is empty."
    (some (ProviderExc.emptyDataset m)), ?_, rfl, rfl, rfl⟩
  unfold compute_splits_response
  rw [h]

/-- Provider whose listing call raises the empty-dataset signal. -/
def provEmptyW : Provider :=
  ⟨.error (ProviderExc.emptyDataset "no data"), fun _ => .ok []⟩

/-- Witness for C1 at a concrete provider. -/
theorem empty_dataset_error_surfaced_witness :
    ∃ e, compute_splits_response "ds" provEmptyW = .error e ∧
      e.code = "EmptyDatasetError" ∧ e.status_code = 500 ∧
      e.disclose_cause = true :=
  empty_dataset_error_surfaced "ds" provEmptyW "no data" rfl

/-- C2: any provider exception inside `compute_splits_response` is translated
into a taxonomy variant (never re-raised raw), and any exception other than
the empty-dataset signal becomes the variant with code "SplitsNamesError",
http_status 500 and disclose_cause true. -/
theorem provider_exception_translated (d : String) (p : Provider)
    (e : ProviderExc)
    (h : get_dataset_split_full_names d p = .error e) :
    (∃ we, compute_splits_response d p = .error we ∧
        (we.code = "EmptyDatasetError" ∨ we.code = "SplitsNamesError")) ∧
      ∀ m, e = ProviderExc.other m →
        ∃ we, compute_splits_response d p = .error we ∧
          we.code = "SplitsNamesError" ∧ we.status_code = 500 ∧
          we.disclose_cause = true := by
  constructor
  · cases e with
    | emptyDataset m =>
        refine ⟨mkEmptyDatasetError "The dataset is empty."
          (some (ProviderExc.emptyDataset m)), ?_, Or.inl rfl⟩
        unfold compute_splits_response
        rw [h]
    | other m =>
        refine ⟨mkSplitsNamesError "Cannot get the split names for the dataset."
          (some (ProviderExc.other m)), ?_, Or.inr rfl⟩
        unfold compute_splits_response
        rw [h]
  · rintro m rfl
    refine ⟨mkSplitsNamesError "Cannot get the split names for the dataset."
      (some (ProviderExc.other m)), ?_, rfl, rfl, rfl⟩
    unfold compute_splits_response
    rw [h]

/-- Provider whose listing call raises a generic exception. -/
def provOtherW : Provider :=
  ⟨.error (ProviderExc.other "boom"), fun _ => .ok []⟩

/-- Witness for C2 at a concrete provider. -/
theorem provider_exception_translated_witness :
    (∃ we, compute_splits_response "ds" provOtherW = .error we ∧
        (we.code = "EmptyDatasetError" ∨ we.code = "SplitsNamesError")) ∧
      ∀ m, ProviderExc.other "boom" = ProviderExc.other m →
        ∃ we, compute_splits_response "ds" provOtherW = .error we ∧
          we.code = "SplitsNamesError" ∧ we.status_code = 500 ∧
          we.disclose_cause = true :=
  provider_exception_translated "ds" provOtherW (ProviderExc.other "boom") rfl

/-- C3: `get_dataset_split_full_names` enumerates the configs as a
lexicographically sorted permutation of the provider's configs, and within
each config keeps the provider's split order. -/
theorem split_full_names_config_order (d : String) (p : Provider)
    (cs : List String) (f : String → List String)
    (hc : p.configNames = .ok cs)
    (hs : ∀ c, p.splitNames c = .ok (f c)) :
    get_dataset_split_full_names d p =
      .ok ((pySorted cs).flatMap fun c =>
        (f c).map fun s => ⟨d, pyStr c, pyStr s⟩) ∧
      List.Sorted (· ≤ ·) (pySorted cs) ∧ (pySorted cs).Perm cs :=
  ⟨get_names_eq d p cs f hc hs, List.sorted_mergeSort' cs,
    List.mergeSort_perm cs _⟩

/-- Provider returning two configs out of order, two splits per config. -/
def provOrderW : Provider := ⟨.ok ["b", "a"], fun c => .ok [c, c ++ "x"]⟩

/-- Witness for C3 at a concrete provider. -/
theorem split_full_names_config_order_witness :
    get_dataset_split_full_names "ds" provOrderW =
      .ok ((pySorted ["b", "a"]).flatMap fun c =>
        ([c, c ++ "x"]).map fun s => ⟨"ds", pyStr c, pyStr s⟩) ∧
      List.Sorted (· ≤ ·) (pySorted ["b", "a"]) ∧
      (pySorted ["b", "a"]).Perm ["b", "a"] :=
  split_full_names_config_order "ds" provOrderW ["b", "a"]
    (fun c => [c, c ++ "x"]) rfl (fun _ => rfl)

/-- C4: membership in `SplitsWorker.get_new_splits content` holds exactly for
the `(dataset, config, split)` triples carried by items of
`content["splits"]`. -/
theorem get_new_splits_spec (content : SplitsResponseContent)
    (t : SplitFullName) :
    t ∈ SplitsWorker.get_new_splits content ↔
      ∃ s ∈ content.splits, s.dataset = t.dataset ∧ s.config = t.config ∧
        s.split = t.split := by
  unfold SplitsWorker.get_new_splits
  rw [List.mem_toFinset, List.mem_map]
  constructor
  · rintro ⟨s, hs, rfl⟩
    exact ⟨s, hs, rfl, rfl, rfl⟩
  · rintro ⟨s, hs, h1, h2, h3⟩
    refine ⟨s, hs, ?_⟩
    cases t
    simp_all

/-- C6: the healthcheck returns status 200 and body exactly "ok", with no
trailing newline (character 10 is the newline). -/
theorem healthcheck_ok :
    healthcheck_endpoint.status_code = 200 ∧
      healthcheck_endpoint.text = "ok" ∧
      healthcheck_endpoint.text.data.getLast? ≠ some (Char.ofNat 10) :=
  ⟨rfl, rfl, by decide⟩

/-- C7: `compute_splits_response` is a deterministic function of the
provider's outputs — two providers returning the same config names and the
same per-config split sequences yield equal responses. -/
theorem compute_splits_response_deterministic (d : String)
    (p1 p2 : Provider) (hc : p1.configNames = p2.configNames)
    (hs : ∀ c, p1.splitNames c = p2.splitNames c) :
    compute_splits_response d p1 = compute_splits_response d p2 := by
  have hg : get_dataset_split_full_names d p1 =
      get_dataset_split_full_names d p2 := by
    unfold get_dataset_split_full_names
    rw [hc]
    have hcong := collectSplitItems_congr d p1.splitNames p2.splitNames hs
    simp only [hcong]
  unfold compute_splits_response
  rw [hg]

/-- First provider for the determinism witness. -/
def provDetA : Provider := ⟨.ok ["c"], fun c => .ok [c]⟩

/-- Second provider for the determinism witness, pointwise equal outputs. -/
def provDetB : Provider := ⟨.ok ["c"], fun c => .ok ([] ++ [c])⟩

/-- Witness for C7 at two concrete providers. -/
theorem compute_splits_response_deterministic_witness :
    compute_splits_response "ds" provDetA = compute_splits_response "ds" provDetB :=
  compute_splits_response_deterministic "ds" provDetA provDetB rfl (fun _ => rfl)

/-- C9: constructing a SplitWorkerError without passing disclose_cause yields
disclose_cause = false; the two subclasses SplitsNamesError and
EmptyDatasetError opt in with disclose_cause = true. -/
theorem disclose_cause_optin (m : String) (st : Nat)
    (c : SplitsWorkerErrorCode) (cause : Option ProviderExc) :
    (mkSplitWorkerErrorDefault m st c cause).disclose_cause = false ∧
      (mkSplitsNamesError m cause).disclose_cause = true ∧
      (mkEmptyDatasetError m cause).disclose_cause = true :=
  ⟨rfl, rfl, rfl⟩

/-- C10: every item produced by `get_dataset_split_full_names` carries the
input dataset name, and its config and split fields are the string coercions
of identifiers the provider returned. -/
theorem split_items_well_formed (d : String) (p : Provider) (cs : List String)
    (f : String → List String) (L : List SplitItem)
    (hc : p.configNames = .ok cs) (hs : ∀ c, p.splitNames c = .ok (f c))
    (hL : get_dataset_split_full_names d p = .ok L) :
    ∀ item ∈ L, item.dataset = d ∧
      ∃ c ∈ cs, ∃ s ∈ f c, item.config = pyStr c ∧ item.split = pyStr s := by
  have hEq := get_names_eq d p cs f hc hs
  rw [hL] at hEq
  have hL2 : L = (pySorted cs).flatMap fun c =>
      (f c).map fun s => ⟨d, pyStr c, pyStr s⟩ := by
    injection hEq
  subst hL2
  intro item hitem
  rw [List.mem_flatMap] at hitem
  obtain ⟨c, hcmem, hitem⟩ := hitem
  rw [List.mem_map] at hitem
  obtain ⟨s, hsmem, rfl⟩ := hitem
  have hc2 : c ∈ cs := (List.mergeSort_perm cs _).mem_iff.mp hcmem
  exact ⟨rfl, c, hc2, s, hsmem, rfl, rfl⟩

/-- Provider with one config and one split for the C10 witness. -/
def provW10 : Provider := ⟨.ok ["a"], fun c => .ok [c]⟩

/-- Witness for C10 at a concrete provider and a concrete produced item. -/
theorem split_items_well_formed_witness :
    (⟨"ds", "a", "a"⟩ : SplitItem).dataset = "ds" ∧
      ∃ c ∈ ["a"], ∃ s ∈ [c],
        (⟨"ds", "a", "a"⟩ : SplitItem).config = pyStr c ∧
        (⟨"ds", "a", "a"⟩ : SplitItem).split = pyStr s :=
  split_items_well_formed "ds" provW10 ["a"] (fun c => [c])
    [⟨"ds", "a", "a"⟩] rfl (fun _ => rfl)
    (by simp [get_dataset_split_full_names, provW10, pySorted,
      collectSplitItems, pyStr, Bind.bind, Except.bind])
    ⟨"ds", "a", "a"⟩ (List.mem_singleton.mpr rfl)

theorem digitChar_isDigit (n : Nat) : (digitChar n).isDigit = true := by
  have h : n % 10 < 10 := Nat.mod_lt n (by decide)
  have aux : ∀ m, m < 10 → (Char.ofNat (48 + m)).isDigit = true := by decide
  exact aux _ h

/-- C5: the /queue endpoint returns status 200 with a body holding exactly
the keys datasets, splits and created_at, where the first two are the
per-status job counts of the two job types and created_at is ISO-8601 UTC at
second precision with a Z suffix. -/
theorem queue_stats_response_shape (q : List QJob) (now : Tm) (maxAge : Nat)
    (h : now.valid) :
    (queue_stats_endpoint q now maxAge).status_code = 200 ∧
      (queue_stats_endpoint q now maxAge).content.datasets =
        count_by_status q JobType.datasets ∧
      (queue_stats_endpoint q now maxAge).content.splits =
        count_by_status q JobType.splits ∧
      isIso8601SecondZ
        ((queue_stats_endpoint q now maxAge).content.created_at) = true := by
  refine ⟨rfl, rfl, rfl, ?_⟩
  show isIso8601SecondZ (strftimeIsoZ now) = true
  unfold isIso8601SecondZ strftimeIsoZ pad4 pad2
  simp [isIso8601SecondZChars, digitChar_isDigit]

/-- Witness for C5 at a concrete queue state and time. -/
theorem queue_stats_response_shape_witness :
    (queue_stats_endpoint [] ⟨2023, 4, 5, 6, 7, 8⟩ 120).status_code = 200 ∧
      (queue_stats_endpoint [] ⟨2023, 4, 5, 6, 7, 8⟩ 120).content.datasets =
        count_by_status [] JobType.datasets ∧
      (queue_stats_endpoint [] ⟨2023, 4, 5, 6, 7, 8⟩ 120).content.splits =
        count_by_status [] JobType.splits ∧
      isIso8601SecondZ
        ((queue_stats_endpoint [] ⟨2023, 4, 5, 6, 7, 8⟩ 120).content.created_at) =
        true :=
  queue_stats_response_shape [] ⟨2023, 4, 5, 6, 7, 8⟩ 120 (by decide)

theorem claimJob_cons (t : JobType) (caller : Nat) (j : QueuedJob)
    (rest : List QueuedJob) :
    claimJob t caller (j :: rest) =
      if j.jobType = t ∧ j.status = JobStatus.waiting then
        (some j.id,
          { j with status := JobStatus.started, owner := some caller } :: rest)
      else ((claimJob t caller rest).1, j :: (claimJob t caller rest).2) := by
  by_cases h : j.jobType = t ∧ j.status = JobStatus.waiting
  · rw [if_pos h]
    conv_lhs => unfold claimJob
    rw [if_pos h]
  · rw [if_neg h]
    conv_lhs => unfold claimJob
    rw [if_neg h]

theorem runClaims_cons (t : JobType) (c : Nat) (calls : List (JobType × Nat))
    (q : List QueuedJob) :
    runClaims ((t, c) :: calls) q =
      ((claimJob t c q).1 :: (runClaims calls (claimJob t c q).2).1,
        (runClaims calls (claimJob t c q).2).2) := rfl

theorem waitingIds_cons (j : QueuedJob) (rest : List QueuedJob) :
    waitingIds (j :: rest) =
      if j.status = JobStatus.waiting then j.id :: waitingIds rest
      else waitingIds rest := by
  unfold waitingIds
  by_cases h : j.status = JobStatus.waiting
  · simp [h, List.filter_cons]
  · simp [h, List.filter_cons]

theorem claimJob_ids (t : JobType) (caller : Nat) (q : List QueuedJob) :
    (claimJob t caller q).2.map QueuedJob.id = q.map QueuedJob.id := by
  induction q with
  | nil => rfl
  | cons j rest ih =>
      rw [claimJob_cons]
      by_cases h : j.jobType = t ∧ j.status = JobStatus.waiting
      · rw [if_pos h]
        simp
      · rw [if_neg h]
        simp [ih]

theorem waitingIds_subset_ids (q : List QueuedJob) :
    ∀ x ∈ waitingIds q, x ∈ q.map QueuedJob.id := by
  intro x hx
  unfold waitingIds at hx
  rw [List.mem_map] at hx ⊢
  obtain ⟨j, hj, rfl⟩ := hx
  exact ⟨j, List.mem_of_mem_filter hj, rfl⟩

theorem waitingIds_claimJob_subset (t : JobType) (caller : Nat)
    (q : List QueuedJob) :
    ∀ x ∈ waitingIds (claimJob t caller q).2, x ∈ waitingIds q := by
  induction q with
  | nil => intro x hx; simpa [claimJob, waitingIds] using hx
  | cons j rest ih =>
      intro x hx
      rw [claimJob_cons] at hx
      by_cases h : j.jobType = t ∧ j.status = JobStatus.waiting
      · rw [if_pos h] at hx
        rw [waitingIds_cons] at hx
        rw [if_neg (by simp)] at hx
        rw [waitingIds_cons, if_pos h.2]
        exact List.mem_cons_of_mem _ hx
      · rw [if_neg h] at hx
        rw [waitingIds_cons] at hx ⊢
        by_cases hw : j.status = JobStatus.waiting
        · rw [if_pos hw] at hx ⊢
          rcases List.mem_cons.mp hx with heq | hmem
          · exact heq ▸ List.mem_cons_self _ _
          · exact List.mem_cons_of_mem _ (ih x hmem)
        · rw [if_neg hw] at hx ⊢
          exact ih x hx

theorem claimJob_some_mem (t : JobType) (caller : Nat) (q : List QueuedJob)
    (i : Nat) (h : (claimJob t caller q).1 = some i) : i ∈ waitingIds q := by
  induction q with
  | nil => simp [claimJob] at h
  | cons j rest ih =>
      rw [claimJob_cons] at h
      by_cases hj : j.jobType = t ∧ j.status = JobStatus.waiting
      · rw [if_pos hj] at h
        simp only [Option.some.injEq] at h
        rw [waitingIds_cons, if_pos hj.2]
        exact h ▸ List.mem_cons_self _ _
      · rw [if_neg hj] at h
        rw [waitingIds_cons]
        by_cases hw : j.status = JobStatus.waiting
        · rw [if_pos hw]
          exact List.mem_cons_of_mem _ (ih h)
        · rw [if_neg hw]
          exact ih h

theorem claimJob_some_not_mem (t : JobType) (caller : Nat) :
    ∀ q : List QueuedJob, (q.map QueuedJob.id).Nodup →
      ∀ i, (claimJob t caller q).1 = some i →
        i ∉ waitingIds (claimJob t caller q).2 := by
  intro q
  induction q with
  | nil => intro _ i h; simp [claimJob] at h
  | cons j rest ih =>
      intro hnd i h
      rw [List.map_cons, List.nodup_cons] at hnd
      rw [claimJob_cons] at h ⊢
      by_cases hj : j.jobType = t ∧ j.status = JobStatus.waiting
      · rw [if_pos hj] at h ⊢
        simp only [Option.some.injEq] at h
        rw [waitingIds_cons, if_neg (by simp)]
        intro hmem
        exact hnd.1 (h ▸ waitingIds_subset_ids rest i hmem)
      · rw [if_neg hj] at h ⊢
        rw [waitingIds_cons]
        have hrec := ih hnd.2 i h
        by_cases hw : j.status = JobStatus.waiting
        · rw [if_pos hw]
          intro hmem
          rcases List.mem_cons.mp hmem with heq | hmem2
          · have hiw := claimJob_some_mem t caller rest i h
            exact hnd.1 (heq ▸ waitingIds_subset_ids rest i hiw)
          · exact hrec hmem2
        · rw [if_neg hw]
          exact hrec

theorem runClaims_spec (calls : List (JobType × Nat)) :
    ∀ q : List QueuedJob, (q.map QueuedJob.id).Nodup →
      ((runClaims calls q).1.filterMap id).Nodup ∧
        ∀ i ∈ (runClaims calls q).1.filterMap id, i ∈ waitingIds q := by
  induction calls with
  | nil =>
      intro q hnd
      exact ⟨by simp [runClaims], by simp [runClaims]⟩
  | cons tc calls ih =>
      intro q hnd
      obtain ⟨t, c⟩ := tc
      have hq2 : ((claimJob t c q).2.map QueuedJob.id).Nodup := by
        rw [claimJob_ids]; exact hnd
      obtain ⟨ihnd, ihmem⟩ := ih (claimJob t c q).2 hq2
      rw [runClaims_cons]
      cases hr : (claimJob t c q).1 with
      | none =>
          constructor
          · simpa [List.filterMap_cons] using ihnd
          · intro i hi
            rw [List.filterMap_cons] at hi
            simp only [id] at hi
            exact waitingIds_claimJob_subset t c q i (ihmem i hi)
      | some i0 =>
          constructor
          · rw [List.filterMap_cons]
            simp only [id]
            rw [List.nodup_cons]
            refine ⟨fun hmem => ?_, ihnd⟩
            exact claimJob_some_not_mem t c q hnd i0 hr (ihmem i0 hmem)
          · intro i hi
            rw [List.filterMap_cons] at hi
            simp only [id] at hi
            rcases List.mem_cons.mp hi with heq | hmem
            · exact heq ▸ claimJob_some_mem t c q i0 hr
            · exact waitingIds_claimJob_subset t c q i (ihmem i hmem)

/-- C8: running any interleaving of atomic claim calls from a queue state with
distinct job ids returns pairwise-distinct jobs, and every returned job was a
waiting job of the initial state — no job is handed to two callers. -/
theorem claim_exclusivity (calls : List (JobType × Nat)) (q : List QueuedJob)
    (hnd : (q.map QueuedJob.id).Nodup) :
    ((runClaims calls q).1.filterMap id).Nodup ∧
      ∀ i ∈ (runClaims calls q).1.filterMap id,
        ∃ j ∈ q, j.id = i ∧ j.status = JobStatus.waiting := by
  obtain ⟨h1, h2⟩ := runClaims_spec calls q hnd
  refine ⟨h1, fun i hi => ?_⟩
  have hw := h2 i hi
  unfold waitingIds at hw
  rw [List.mem_map] at hw
  obtain ⟨j, hj, rfl⟩ := hw
  rw [List.mem_filter] at hj
  refine ⟨j, hj.1, rfl, ?_⟩
  simpa using hj.2

/-- Queue with two waiting dataset jobs for the C8 witness. -/
def qExclW : List QueuedJob :=
  [⟨0, JobType.datasets, JobStatus.waiting, none⟩,
    ⟨1, JobType.datasets, JobStatus.waiting, none⟩]

/-- Witness for C8 at a concrete queue and two claim calls. -/
theorem claim_exclusivity_witness :
    ((runClaims [(JobType.datasets, 7), (JobType.datasets, 8)] qExclW).1.filterMap
        id).Nodup ∧
      ∀ i ∈ (runClaims [(JobType.datasets, 7),
          (JobType.datasets, 8)] qExclW).1.filterMap id,
        ∃ j ∈ qExclW, j.id = i ∧ j.status = JobStatus.waiting :=
  claim_exclusivity [(JobType.datasets, 7), (JobType.datasets, 8)] qExclW
    (by decide)
